import Mathlib

/-!
# Verification of the memcached exporter's stats translation engine

Shallow embedding of `pkg/exporter/exporter.go` (tdewolff/memcached_exporter).

Modelling conventions:
* `float64` values are modelled as exact rationals (`ℚ`).  All arithmetic the
  claims touch (sums, differences, division by 10^6) is exact on the counter
  ranges involved, so no rounding is modelled.
* `strconv.ParseFloat` is modelled on the decimal grammar
  (sign, digits, fraction, exponent).  The exotic accepted forms
  (`Inf`, `NaN`, hexadecimal floats, digit-separating underscores) are not
  representable as exact rationals and are rejected by the model; no claim
  depends on them.
* Go maps (`map[string]string`, `map[int]...`, `map[net.Addr]...`) are
  modelled as association lists; Go's nondeterministic iteration order is
  fixed to list order (all claims proved are insensitive to it).
* A value sent on the output channel `ch` becomes an `Obs` appended to a
  result list; a Go `error` result becomes `Option GoErr` / `Except GoErr`.
-/

namespace MemcachedExporter

/-- The error values a scalar parser can produce: `errKeyNotFound`
(the sentinel `errors.New("key not found")`), a `strconv.ParseFloat` error,
the `parseBool` error, and the `parseTimeval` error. -/
inductive GoErr where
  | keyNotFound
  | malformedNumber
  | malformedBool
  | malformedTimeval
deriving DecidableEq, Repr

/-- A raw record: `map[string]string`, modelled as an association list. -/
abbrev StrMap := List (String × String)

/-- Go map lookup `m[k]` (first binding wins, mirroring a map's unique keys). -/
def mlookup : StrMap → String → Option String
  | [], _ => none
  | (a, b) :: r, k => if a = k then some b else mlookup r k

/-- Go map lookup returning the zero value `""` when the key is absent,
i.e. the expression `s[key]` used without the `, ok` form. -/
def mlookupD (m : StrMap) (k : String) : String :=
  (mlookup m k).getD ""

/-! ## A model of `strconv.ParseFloat` on the decimal grammar -/

def isDigitChar (c : Char) : Bool :=
  '0' ≤ c && c ≤ '9'

/-- Split a character list into its leading run of decimal digits and the rest. -/
def readDigits : List Char → List Char × List Char
  | [] => ([], [])
  | c :: r =>
    if isDigitChar c then
      let p := readDigits r
      (c :: p.1, p.2)
    else ([], c :: r)

def digitsToNat (l : List Char) : Nat :=
  l.foldl (fun a c => 10 * a + (c.toNat - 48)) 0

/-- The mantissa value of integer digits `ip` and fraction digits `fp`. -/
def mantissaVal (ip fp : List Char) : ℚ :=
  (digitsToNat ip : ℚ) + (digitsToNat fp : ℚ) / (10 : ℚ) ^ fp.length

/-- Ten to an integer power, as an exact rational. -/
def powTen (e : Int) : ℚ :=
  if 0 ≤ e then (10 : ℚ) ^ e.toNat else 1 / (10 : ℚ) ^ (-e).toNat

/-- Parse the exponent digits (after `e`/`E`), requiring them to use up the
whole remainder of the string. -/
def parseExpDigits (cs : List Char) : Option Int :=
  match cs with
  | [] => none
  | c :: r =>
    if c = '+' then
      let p := readDigits r
      if p.1 ≠ [] ∧ p.2 = [] then some (digitsToNat p.1 : Int) else none
    else if c = '-' then
      let p := readDigits r
      if p.1 ≠ [] ∧ p.2 = [] then some (-(digitsToNat p.1 : Int)) else none
    else
      let p := readDigits (c :: r)
      if p.1 ≠ [] ∧ p.2 = [] then some (digitsToNat p.1 : Int) else none

/-- Attach an optional exponent part to a mantissa value. -/
def withExp (m : ℚ) : List Char → Option ℚ
  | [] => some m
  | c :: r =>
    if c = 'e' ∨ c = 'E' then (parseExpDigits r).map (fun e => m * powTen e)
    else none

/-- An unsigned decimal floating-point literal: digits, an optional
`.`-separated fraction (at least one digit overall), an optional exponent. -/
def parseUnsignedFloat (cs : List Char) : Option ℚ :=
  let ipr := readDigits cs
  match ipr.2 with
  | [] => if ipr.1 = [] then none else withExp (mantissaVal ipr.1 []) []
  | c :: r2 =>
    if c = '.' then
      let fpr := readDigits r2
      if ipr.1 = [] ∧ fpr.1 = [] then none
      else withExp (mantissaVal ipr.1 fpr.1) fpr.2
    else if ipr.1 = [] then none
    else withExp (mantissaVal ipr.1 []) (c :: r2)

/-- Model of `strconv.ParseFloat(value, 64)` on the decimal grammar,
producing an exact rational. -/
def parseGoFloatChars (cs : List Char) : Option ℚ :=
  match cs with
  | [] => none
  | c :: r =>
    if c = '+' then parseUnsignedFloat r
    else if c = '-' then (parseUnsignedFloat r).map (fun q => -q)
    else parseUnsignedFloat (c :: r)

def parseGoFloat (s : String) : Option ℚ :=
  parseGoFloatChars s.data

/-! ## Scalar parsers (`parse`, `parseBool`, `parseTimeval`, `sum`) -/

/-- `parse`: look up `key` in `stats`; `errKeyNotFound` if absent,
`strconv.ParseFloat` on the raw value otherwise. -/
def parse (stats : StrMap) (key : String) : Except GoErr ℚ :=
  match mlookup stats key with
  | none => .error .keyNotFound
  | some value =>
    match parseGoFloat value with
    | none => .error .malformedNumber
    | some v => .ok v

/-- `parseBool`: exactly the literals `"yes"` / `"no"` map to `1` / `0`. -/
def parseBool (stats : StrMap) (key : String) : Except GoErr ℚ :=
  match mlookup stats key with
  | none => .error .keyNotFound
  | some value =>
    match value with
    | "yes" => .ok 1
    | "no" => .ok 0
    | _ => .error .malformedBool

/-- `strings.Split(value, ".")` for the one-character separator `"."`. -/
def splitOnDot : List Char → List (List Char)
  | [] => [[]]
  | c :: r =>
    let rest := splitOnDot r
    if c = '.' then [] :: rest
    else
      match rest with
      | h :: t => (c :: h) :: t
      | [] => [[c]]

/-- `parseTimeval`: split the raw value on `"."`; fail unless exactly two
parts, both accepted by `ParseFloat`; result `seconds + microseconds/1e6`. -/
def parseTimeval (stats : StrMap) (key : String) : Except GoErr ℚ :=
  match mlookup stats key with
  | none => .error .keyNotFound
  | some value =>
    match splitOnDot value.data with
    | [secondsStr, microStr] =>
      match parseGoFloatChars secondsStr with
      | none => .error .malformedTimeval
      | some seconds =>
        match parseGoFloatChars microStr with
        | none => .error .malformedTimeval
        | some micro => .ok (seconds + micro / (1000 * 1000))
    | _ => .error .malformedTimeval

/-- `sum(stats, keys...)`: fails with `errKeyNotFound` if any key is absent,
with a number error if any value fails `ParseFloat`; otherwise the sum. -/
def sum : StrMap → List String → Except GoErr ℚ
  | _, [] => .ok 0
  | stats, key :: rest =>
    match mlookup stats key with
    | none => .error .keyNotFound
    | some value =>
      match parseGoFloat value with
      | none => .error .malformedNumber
      | some v =>
        match sum stats rest with
        | .error e => .error e
        | .ok s => .ok (v + s)

/-- `firstError(errors...)`: the first non-nil error. -/
def firstError : List (Option GoErr) → Option GoErr
  | [] => none
  | some e :: _ => some e
  | none :: rest => firstError rest

/-- The statement `if err != nil { parseError = err }`: overwrite the
accumulated error with the new one when the new one is non-nil. -/
def updErr (acc e : Option GoErr) : Option GoErr :=
  match e with
  | some x => some x
  | none => acc

/-! ## Metric catalog

One constructor per `*prometheus.Desc` field of the `Exporter` struct,
in the struct's declaration order. -/

inductive MetricDesc where
  | up
  | uptime
  | time
  | version
  | rusageUser
  | rusageSystem
  | bytesRead
  | bytesWritten
  | currentConnections
  | maxConnections
  | connectionsTotal
  | rejectedConnections
  | connsYieldedTotal
  | listenerDisabledTotal
  | currentBytes
  | limitBytes
  | commands
  | items
  | itemsTotal
  | evictions
  | reclaimed
  | lruCrawlerEnabled
  | lruCrawlerSleep
  | lruCrawlerMaxItems
  | lruMaintainerThread
  | lruHotPercent
  | lruWarmPercent
  | lruHotMaxAgeFactor
  | lruWarmMaxAgeFactor
  | lruCrawlerStarts
  | lruCrawlerReclaimed
  | lruCrawlerItemsChecked
  | lruCrawlerMovesToCold
  | lruCrawlerMovesToWarm
  | lruCrawlerMovesWithinLru
  | malloced
  | itemsNumber
  | itemsAge
  | itemsCrawlerReclaimed
  | itemsEvicted
  | itemsEvictedNonzero
  | itemsEvictedTime
  | itemsEvictedUnfetched
  | itemsExpiredUnfetched
  | itemsOutofmemory
  | itemsReclaimed
  | itemsTailrepairs
  | itemsMovesToCold
  | itemsMovesToWarm
  | itemsMovesWithinLru
  | itemsHot
  | itemsWarm
  | itemsCold
  | itemsTemporary
  | itemsAgeOldestHot
  | itemsAgeOldestWarm
  | itemsLruHits
  | slabsChunkSize
  | slabsChunksPerPage
  | slabsCurrentPages
  | slabsCurrentChunks
  | slabsChunksUsed
  | slabsChunksFree
  | slabsChunksFreeEnd
  | slabsMemRequested
  | slabsCommands
  | extstoreCompactLost
  | extstoreCompactRescues
  | extstoreCompactSkipped
  | extstorePageAllocs
  | extstorePageEvictions
  | extstorePageReclaims
  | extstorePagesFree
  | extstorePagesUsed
  | extstoreObjectsEvicted
  | extstoreObjectsRead
  | extstoreObjectsWritten
  | extstoreObjectsUsed
  | extstoreBytesEvicted
  | extstoreBytesWritten
  | extstoreBytesRead
  | extstoreBytesUsed
  | extstoreBytesLimit
  | extstoreBytesFragmented
  | extstoreIOQueueDepth
  | acceptingConnections
deriving DecidableEq, Repr, Fintype

/-- `prometheus.ValueType`: counter or gauge. -/
inductive ValueType where
  | counter
  | gauge
deriving DecidableEq, Repr

/-- An emitted observation: `prometheus.MustNewConstMetric(desc, vt, value,
labelValues...)` sent on the output channel. -/
structure Obs where
  desc : MetricDesc
  vt : ValueType
  value : ℚ
  labels : List String
deriving DecidableEq, Repr

set_option maxHeartbeats 1000000 in
/-- `Describe` sends the descriptors in exactly this order
(`e.itemsExpiredUnfetched` appears twice in the source). -/
def describeList : List MetricDesc :=
  [.up, .uptime, .time, .version, .rusageUser, .rusageSystem, .bytesRead,
   .bytesWritten, .currentConnections, .maxConnections, .connectionsTotal,
   .rejectedConnections, .connsYieldedTotal, .listenerDisabledTotal,
   .currentBytes, .limitBytes, .commands, .items, .itemsTotal, .evictions,
   .reclaimed, .lruCrawlerEnabled, .lruCrawlerSleep, .lruCrawlerMaxItems,
   .lruMaintainerThread, .lruHotPercent, .lruWarmPercent,
   .lruHotMaxAgeFactor, .lruWarmMaxAgeFactor, .lruCrawlerStarts,
   .lruCrawlerReclaimed, .lruCrawlerItemsChecked, .lruCrawlerMovesToCold,
   .lruCrawlerMovesToWarm, .lruCrawlerMovesWithinLru, .itemsLruHits,
   .malloced, .itemsNumber, .itemsAge, .itemsCrawlerReclaimed,
   .itemsEvicted, .itemsEvictedNonzero, .itemsEvictedTime,
   .itemsEvictedUnfetched, .itemsExpiredUnfetched, .itemsOutofmemory,
   .itemsReclaimed, .itemsTailrepairs, .itemsExpiredUnfetched,
   .itemsMovesToCold, .itemsMovesToWarm, .itemsMovesWithinLru, .itemsHot,
   .itemsWarm, .itemsCold, .itemsTemporary, .itemsAgeOldestHot,
   .itemsAgeOldestWarm, .slabsChunkSize, .slabsChunksPerPage,
   .slabsCurrentPages, .slabsCurrentChunks, .slabsChunksUsed,
   .slabsChunksFree, .slabsChunksFreeEnd, .slabsMemRequested,
   .slabsCommands, .extstoreCompactLost, .extstoreCompactRescues,
   .extstoreCompactSkipped, .extstorePageAllocs, .extstorePageEvictions,
   .extstorePageReclaims, .extstorePagesFree, .extstorePagesUsed,
   .extstoreObjectsEvicted, .extstoreObjectsRead, .extstoreObjectsWritten,
   .extstoreObjectsUsed, .extstoreBytesEvicted, .extstoreBytesWritten,
   .extstoreBytesRead, .extstoreBytesUsed, .extstoreBytesFragmented,
   .extstoreBytesLimit, .extstoreIOQueueDepth, .acceptingConnections]

/-! ## Field-to-metric binder -/

/-- Which of the three scalar parsers a binder call designates. -/
inductive PKind where
  | num
  | bool
  | timeval
deriving DecidableEq, Repr

def pfun : PKind → StrMap → String → Except GoErr ℚ
  | .num => parse
  | .bool => parseBool
  | .timeval => parseTimeval

/-- One binder call: descriptor, value type, designated parser, field key and
label values (the arguments of `parseAndNewMetric` / `parseBoolAndNewMetric` /
`parseTimevalAndNewMetric`). -/
structure BindSpec where
  desc : MetricDesc
  vt : ValueType
  pk : PKind
  key : String
  labels : List String
deriving DecidableEq, Repr

/-- `extractValueAndNewMetric`: run the designated parser; on
`errKeyNotFound` succeed with no emission; on any other error return it with
no emission; otherwise emit one observation. -/
def extractValueAndNewMetric (desc : MetricDesc) (vt : ValueType)
    (f : StrMap → String → Except GoErr ℚ) (stats : StrMap) (key : String)
    (labelValues : List String) : List Obs × Option GoErr :=
  match f stats key with
  | .error .keyNotFound => ([], none)
  | .error e => ([], some e)
  | .ok v => ([⟨desc, vt, v, labelValues⟩], none)

/-- A binder call, packaged through a `BindSpec`. -/
def runBind (stats : StrMap) (b : BindSpec) : List Obs × Option GoErr :=
  extractValueAndNewMetric b.desc b.vt (pfun b.pk) stats b.key b.labels

/-- Concatenate the emissions of a sequence of steps. -/
def collectObs : List (List Obs × Option GoErr) → List Obs
  | [] => []
  | r :: rs => r.1 ++ collectObs rs

/-- Run steps in sequence; each step's non-nil error overwrites the
accumulated `parseError` (the `if err != nil { parseError = err }` pattern). -/
def seqChunks (rs : List (List Obs × Option GoErr)) : List Obs × Option GoErr :=
  (collectObs rs, rs.foldl (fun a r => updErr a r.2) none)

/-- A group of binder calls whose errors are reduced with `firstError`. -/
def bindGroup (stats : StrMap) (specs : List BindSpec) : List Obs × Option GoErr :=
  (collectObs (specs.map (runBind stats)), firstError (specs.map (fun b => (runBind stats b).2)))

/-! ## Per-server stats translator (`parseStats`) -/

/-- `memcache.Stats`: the per-server raw stats, with the slab-indexed
`Items` and `Slabs` sub-records. -/
structure ServerStats where
  stats : StrMap
  items : List (Nat × StrMap)
  slabs : List (Nat × StrMap)

def cmdOps : List String := ["get", "delete", "incr", "decr", "cas", "touch"]

/-- Unconditional version observation: value 1, label `s["version"]`
(the zero value `""` when the key is absent). -/
def versionChunk (s : StrMap) (server : String) : List Obs × Option GoErr :=
  ([⟨.version, .gauge, 1, [mlookupD s "version", server]⟩], none)

/-- The hit/miss command-counter loop over the fixed verbs. -/
def opChunk (s : StrMap) (server : String) : List Obs × Option GoErr :=
  seqChunks (cmdOps.map (fun op =>
    bindGroup s
      [⟨.commands, .counter, .num, op ++ "_hits", [op, "hit", server]⟩,
       ⟨.commands, .counter, .num, op ++ "_misses", [op, "miss", server]⟩]))

/-- Uptime, time, and the two special command counters. -/
def basicSpecs (server : String) : List BindSpec :=
  [⟨.uptime, .counter, .num, "uptime", [server]⟩,
   ⟨.time, .gauge, .num, "time", [server]⟩,
   ⟨.commands, .counter, .num, "cas_badval", ["cas", "badval", server]⟩,
   ⟨.commands, .counter, .num, "cmd_flush", ["flush", "hit", server]⟩]

/-- The derived "plain set" counter:
`cmd_set - (cas_misses + cas_hits + cas_badval)`, emitted only when
`cmd_set` parses and `sum` over the three cas keys succeeds; on either
failure nothing is emitted and the failure is recorded. -/
def derivedChunk (s : StrMap) (server : String) : List Obs × Option GoErr :=
  match parse s "cmd_set" with
  | .error e => ([], some e)
  | .ok setCmd =>
    match sum s ["cas_misses", "cas_hits", "cas_badval"] with
    | .error e => ([], some e)
    | .ok cas => ([⟨.commands, .counter, setCmd - cas, ["set", "hit", server]⟩], none)

def extstoreSpecs (server : String) : List BindSpec :=
  [⟨.extstoreCompactLost, .counter, .num, "extstore_compact_lost", [server]⟩,
   ⟨.extstoreCompactRescues, .counter, .num, "extstore_compact_rescues", [server]⟩,
   ⟨.extstoreCompactSkipped, .counter, .num, "extstore_compact_skipped", [server]⟩,
   ⟨.extstorePageAllocs, .counter, .num, "extstore_page_allocs", [server]⟩,
   ⟨.extstorePageEvictions, .counter, .num, "extstore_page_evictions", [server]⟩,
   ⟨.extstorePageReclaims, .counter, .num, "extstore_page_reclaims", [server]⟩,
   ⟨.extstorePagesFree, .gauge, .num, "extstore_pages_free", [server]⟩,
   ⟨.extstorePagesUsed, .gauge, .num, "extstore_pages_used", [server]⟩,
   ⟨.extstoreObjectsEvicted, .counter, .num, "extstore_objects_evicted", [server]⟩,
   ⟨.extstoreObjectsRead, .counter, .num, "extstore_objects_read", [server]⟩,
   ⟨.extstoreObjectsWritten, .counter, .num, "extstore_objects_written", [server]⟩,
   ⟨.extstoreObjectsUsed, .gauge, .num, "extstore_objects_used", [server]⟩,
   ⟨.extstoreBytesEvicted, .counter, .num, "extstore_bytes_evicted", [server]⟩,
   ⟨.extstoreBytesWritten, .counter, .num, "extstore_bytes_written", [server]⟩,
   ⟨.extstoreBytesRead, .counter, .num, "extstore_bytes_read", [server]⟩,
   ⟨.extstoreBytesUsed, .counter, .num, "extstore_bytes_used", [server]⟩,
   ⟨.extstoreBytesFragmented, .gauge, .num, "extstore_bytes_fragmented", [server]⟩,
   ⟨.extstoreBytesLimit, .gauge, .num, "extstore_limit_maxbytes", [server]⟩,
   ⟨.extstoreIOQueueDepth, .gauge, .num, "extstore_io_queue", [server]⟩]

/-- The extstore group is attempted only when the `extstore_limit_maxbytes`
key is present in the raw record. -/
def extstoreChunk (s : StrMap) (server : String) : List Obs × Option GoErr :=
  if (mlookup s "extstore_limit_maxbytes").isSome then
    bindGroup s (extstoreSpecs server)
  else ([], none)

def mainSpecs (server : String) : List BindSpec :=
  [⟨.rusageUser, .counter, .timeval, "rusage_user", [server]⟩,
   ⟨.rusageSystem, .counter, .timeval, "rusage_system", [server]⟩,
   ⟨.currentBytes, .gauge, .num, "bytes", [server]⟩,
   ⟨.limitBytes, .gauge, .num, "limit_maxbytes", [server]⟩,
   ⟨.items, .gauge, .num, "curr_items", [server]⟩,
   ⟨.itemsTotal, .counter, .num, "total_items", [server]⟩,
   ⟨.bytesRead, .counter, .num, "bytes_read", [server]⟩,
   ⟨.bytesWritten, .counter, .num, "bytes_written", [server]⟩,
   ⟨.currentConnections, .gauge, .num, "curr_connections", [server]⟩,
   ⟨.connectionsTotal, .counter, .num, "total_connections", [server]⟩,
   ⟨.rejectedConnections, .counter, .num, "rejected_connections", [server]⟩,
   ⟨.connsYieldedTotal, .counter, .num, "conn_yields", [server]⟩,
   ⟨.listenerDisabledTotal, .counter, .num, "listen_disabled_num", [server]⟩,
   ⟨.evictions, .counter, .num, "evictions", [server]⟩,
   ⟨.reclaimed, .counter, .num, "reclaimed", [server]⟩,
   ⟨.lruCrawlerStarts, .counter, .num, "lru_crawler_starts", [server]⟩,
   ⟨.lruCrawlerItemsChecked, .counter, .num, "crawler_items_checked", [server]⟩,
   ⟨.lruCrawlerReclaimed, .counter, .num, "crawler_reclaimed", [server]⟩,
   ⟨.lruCrawlerMovesToCold, .counter, .num, "moves_to_cold", [server]⟩,
   ⟨.lruCrawlerMovesToWarm, .counter, .num, "moves_to_warm", [server]⟩,
   ⟨.lruCrawlerMovesWithinLru, .counter, .num, "moves_within_lru", [server]⟩,
   ⟨.malloced, .gauge, .num, "total_malloced", [server]⟩,
   ⟨.acceptingConnections, .gauge, .num, "accepting_conns", [server]⟩]

/-- The `itemsCounterMetrics` table, in the source's literal order. -/
def itemsCounterMetrics : List (String × MetricDesc) :=
  [("crawler_reclaimed", .itemsCrawlerReclaimed),
   ("evicted", .itemsEvicted),
   ("evicted_nonzero", .itemsEvictedNonzero),
   ("evicted_time", .itemsEvictedTime),
   ("evicted_unfetched", .itemsEvictedUnfetched),
   ("expired_unfetched", .itemsExpiredUnfetched),
   ("outofmemory", .itemsOutofmemory),
   ("reclaimed", .itemsReclaimed),
   ("tailrepairs", .itemsTailrepairs),
   ("mem_requested", .slabsMemRequested),
   ("moves_to_cold", .itemsMovesToCold),
   ("moves_to_warm", .itemsMovesToWarm),
   ("moves_within_lru", .itemsMovesWithinLru)]

/-- The `itemsGaugeMetrics` table, in the source's literal order. -/
def itemsGaugeMetrics : List (String × MetricDesc) :=
  [("number_hot", .itemsHot),
   ("number_warm", .itemsWarm),
   ("number_cold", .itemsCold),
   ("number_temp", .itemsTemporary),
   ("age_hot", .itemsAgeOldestHot),
   ("age_warm", .itemsAgeOldestWarm)]

def itemsFixedSpecs (sl server : String) : List BindSpec :=
  [⟨.itemsNumber, .gauge, .num, "number", [sl, server]⟩,
   ⟨.itemsAge, .gauge, .num, "age", [sl, server]⟩,
   ⟨.itemsLruHits, .counter, .num, "hits_to_hot", [sl, "hot", server]⟩,
   ⟨.itemsLruHits, .counter, .num, "hits_to_warm", [sl, "warm", server]⟩,
   ⟨.itemsLruHits, .counter, .num, "hits_to_cold", [sl, "cold", server]⟩,
   ⟨.itemsLruHits, .counter, .num, "hits_to_temp", [sl, "temporary", server]⟩]

/-- One iteration of the `t.Items` loop: the fixed group, then the
presence-driven counter and gauge tables (absent keys are skipped by the
`continue` before the binder is ever called). -/
def itemsSlabChunk (slab : Nat) (u : StrMap) (server : String) :
    List Obs × Option GoErr :=
  seqChunks ([bindGroup u (itemsFixedSpecs (toString slab) server)]
    ++ (itemsCounterMetrics.filterMap (fun p =>
          if (mlookup u p.1).isSome then
            some (runBind u ⟨p.2, .counter, .num, p.1, [toString slab, server]⟩)
          else none))
    ++ (itemsGaugeMetrics.filterMap (fun p =>
          if (mlookup u p.1).isSome then
            some (runBind u ⟨p.2, .gauge, .num, p.1, [toString slab, server]⟩)
          else none)))

def slabsFixedSpecs (sl server : String) : List BindSpec :=
  [⟨.slabsChunkSize, .gauge, .num, "chunk_size", [sl, server]⟩,
   ⟨.slabsChunksPerPage, .gauge, .num, "chunks_per_page", [sl, server]⟩,
   ⟨.slabsCurrentPages, .gauge, .num, "total_pages", [sl, server]⟩,
   ⟨.slabsCurrentChunks, .gauge, .num, "total_chunks", [sl, server]⟩,
   ⟨.slabsChunksUsed, .gauge, .num, "used_chunks", [sl, server]⟩,
   ⟨.slabsChunksFree, .gauge, .num, "free_chunks", [sl, server]⟩,
   ⟨.slabsChunksFreeEnd, .gauge, .num, "free_chunks_end", [sl, server]⟩,
   ⟨.slabsMemRequested, .gauge, .num, "mem_requested", [sl, server]⟩]

/-- The slab-scoped derived "plain set" counter.  Note: in the source the
subtrahend is `sum(v, "cas_hits", "cas_badval")` — `cas_misses` is *not*
included, unlike the server-level derivation. -/
def slabDerivedChunk (v : StrMap) (sl server : String) : List Obs × Option GoErr :=
  match parse v "cmd_set" with
  | .error e => ([], some e)
  | .ok setCmd =>
    match sum v ["cas_hits", "cas_badval"] with
    | .error e => ([], some e)
    | .ok cas => ([⟨.slabsCommands, .counter, setCmd - cas, [sl, "set", "hit", server]⟩], none)

/-- One iteration of the `t.Slabs` loop. -/
def slabsSlabChunk (slab : Nat) (v : StrMap) (server : String) :
    List Obs × Option GoErr :=
  seqChunks ((cmdOps.map (fun op =>
      runBind v ⟨.slabsCommands, .counter, .num, op ++ "_hits",
                 [toString slab, op, "hit", server]⟩))
    ++ [runBind v ⟨.slabsCommands, .counter, .num, "cas_badval",
                   [toString slab, "cas", "badval", server]⟩]
    ++ [slabDerivedChunk v (toString slab) server]
    ++ [bindGroup v (slabsFixedSpecs (toString slab) server)])

/-- Translation of one `memcache.Stats` record, in the source's order:
version, the verb hit/miss loop, the uptime/time/cas/flush group, the derived
set counter, the conditional extstore group, the main group, the items loop
and the slabs loop.  The second component is the record's net effect on
`parseError` (last non-nil group error). -/
def statsRecordObsErr (t : ServerStats) (server : String) :
    List Obs × Option GoErr :=
  seqChunks
    [versionChunk t.stats server,
     opChunk t.stats server,
     bindGroup t.stats (basicSpecs server),
     derivedChunk t.stats server,
     extstoreChunk t.stats server,
     bindGroup t.stats (mainSpecs server),
     seqChunks (t.items.map (fun p => itemsSlabChunk p.1 p.2 server)),
     seqChunks (t.slabs.map (fun p => slabsSlabChunk p.1 p.2 server))]

/-- `parseStats`: iterate over the per-address records (the
`map[net.Addr]memcache.Stats` argument), returning the emitted observations
and the final `parseError`. -/
def parseStats (stats : List ServerStats) (server : String) :
    List Obs × Option GoErr :=
  seqChunks (stats.map (fun t => statsRecordObsErr t server))

/-! ## Settings translator (`parseStatsSettings`) -/

def maxconnsSpec (server : String) : BindSpec :=
  ⟨.maxConnections, .gauge, .num, "maxconns", [server]⟩

def crawlerSpecs (server : String) : List BindSpec :=
  [⟨.lruCrawlerEnabled, .gauge, .bool, "lru_crawler", [server]⟩,
   ⟨.lruCrawlerSleep, .gauge, .num, "lru_crawler_sleep", [server]⟩,
   ⟨.lruCrawlerMaxItems, .gauge, .num, "lru_crawler_tocrawl", [server]⟩,
   ⟨.lruMaintainerThread, .gauge, .bool, "lru_maintainer_thread", [server]⟩,
   ⟨.lruHotPercent, .gauge, .num, "hot_lru_pct", [server]⟩,
   ⟨.lruWarmPercent, .gauge, .num, "warm_lru_pct", [server]⟩,
   ⟨.lruHotMaxAgeFactor, .gauge, .num, "hot_max_factor", [server]⟩,
   ⟨.lruWarmMaxAgeFactor, .gauge, .num, "warm_max_factor", [server]⟩]

/-- Translation of one settings record: always bind `maxconns`; bind the
crawler-tuning group only when the `lru_crawler` field is present and equal
to the literal `"yes"`. -/
def settingsRecordObsErr (settings : StrMap) (server : String) :
    List Obs × Option GoErr :=
  seqChunks
    [runBind settings (maxconnsSpec server),
     if mlookup settings "lru_crawler" = some "yes" then
       bindGroup settings (crawlerSpecs server)
     else ([], none)]

/-- `parseStatsSettings` over the per-address settings records. -/
def parseStatsSettings (statsSettings : List StrMap) (server : String) :
    List Obs × Option GoErr :=
  seqChunks (statsSettings.map (fun s => settingsRecordObsErr s server))

/-! ## Multi-server collector (`CollectServer`) -/

/-- The transport collaborator's two fetches for one connected client:
`c.Stats()` and `c.StatsSettings()`.  An `Except.error` models the fetch
returning a non-nil error (in which case the Go variable keeps its zero
value, the nil map, modelled as `[]`). -/
structure MemcacheClient where
  statsRes : Except Unit (List ServerStats)
  settingsRes : Except Unit (List StrMap)

def fetchOk {α : Type} : Except Unit α → Bool
  | .ok _ => true
  | .error _ => false

def fetchedStats (c : MemcacheClient) : List ServerStats :=
  match c.statsRes with
  | .ok v => v
  | .error _ => []

def fetchedSettings (c : MemcacheClient) : List StrMap :=
  match c.settingsRes with
  | .ok v => v
  | .error _ => []

/-- The final value of the `up` variable: it starts at 1 and is set to 0 by
a failed `Stats()` fetch, a failed `StatsSettings()` fetch, a non-nil
`parseStats` error, or a non-nil `parseStatsSettings` error. -/
def serverUpValue (conn : Option MemcacheClient) (server : String) : ℚ :=
  match conn with
  | none => 0
  | some c =>
    if fetchOk c.statsRes && fetchOk c.settingsRes
        && (parseStats (fetchedStats c) server).2.isNone
        && (parseStatsSettings (fetchedSettings c) server).2.isNone
    then 1 else 0

/-- `CollectServer`: when `memcache.New` fails (`conn = none`) only the
0-valued `up` observation is emitted; otherwise both translators run and the
single `up` observation is appended last. -/
def CollectServer (conn : Option MemcacheClient) (server : String) : List Obs :=
  match conn with
  | none => [⟨.up, .gauge, 0, [server]⟩]
  | some c =>
    (parseStats (fetchedStats c) server).1
      ++ (parseStatsSettings (fetchedSettings c) server).1
      ++ [⟨.up, .gauge, serverUpValue conn server, [server]⟩]

/-! ## Infrastructure lemmas -/

theorem mem_collectObs {o : Obs} :
    ∀ {rs : List (List Obs × Option GoErr)},
      o ∈ collectObs rs ↔ ∃ r ∈ rs, o ∈ r.1 := by
  intro rs
  induction rs with
  | nil => simp [collectObs]
  | cons r rs ih => simp [collectObs, ih]

theorem updErr_none (a : Option GoErr) : updErr a none = a := rfl

theorem updErr_some (a : Option GoErr) (e : GoErr) : updErr a (some e) = some e := rfl

theorem foldl_updErr_isSome (rs : List (List Obs × Option GoErr)) (a : Option GoErr) :
    (rs.foldl (fun x r => updErr x r.2) a).isSome
      = (a.isSome || rs.any (fun r => r.2.isSome)) := by
  induction rs generalizing a with
  | nil => simp
  | cons r rs ih =>
    cases h : r.2 with
    | none =>
      rw [List.foldl_cons, h, updErr_none, ih]
      simp [h]
    | some e =>
      rw [List.foldl_cons, h, updErr_some, ih]
      simp [h]

theorem seqChunks_obs (rs : List (List Obs × Option GoErr)) :
    (seqChunks rs).1 = collectObs rs := rfl

theorem seqChunks_err_isSome (rs : List (List Obs × Option GoErr)) :
    (seqChunks rs).2.isSome = rs.any (fun r => r.2.isSome) := by
  simpa using foldl_updErr_isSome rs none

theorem firstError_isSome (es : List (Option GoErr)) :
    (firstError es).isSome = es.any (fun e => e.isSome) := by
  induction es with
  | nil => simp [firstError]
  | cons e es ih =>
    cases e with
    | none => simpa [firstError] using ih
    | some x => simp [firstError]

/-! ## Binder lemmas -/

theorem mem_runBind {o : Obs} {s : StrMap} {b : BindSpec}
    (h : o ∈ (runBind s b).1) :
    o.desc = b.desc ∧ o.vt = b.vt ∧ o.labels = b.labels := by
  unfold runBind extractValueAndNewMetric at h
  split at h
  · simp at h
  · simp at h
  · simp at h
    subst h
    exact ⟨rfl, rfl, rfl⟩

theorem runBind_absent {s : StrMap} {b : BindSpec}
    (h : mlookup s b.key = none) : runBind s b = ([], none) := by
  unfold runBind extractValueAndNewMetric
  have : pfun b.pk s b.key = .error .keyNotFound := by
    cases b.pk <;> simp [pfun, parse, parseBool, parseTimeval, h]
  simp [this]

theorem runBind_ok {s : StrMap} {b : BindSpec} {v : ℚ}
    (h : pfun b.pk s b.key = .ok v) :
    runBind s b = ([⟨b.desc, b.vt, v, b.labels⟩], none) := by
  unfold runBind extractValueAndNewMetric
  simp [h]

theorem mem_bindGroup {o : Obs} {s : StrMap} {specs : List BindSpec}
    (h : o ∈ (bindGroup s specs).1) :
    ∃ b ∈ specs, o.desc = b.desc ∧ o.vt = b.vt ∧ o.labels = b.labels := by
  unfold bindGroup at h
  rw [mem_collectObs] at h
  obtain ⟨r, hr, ho⟩ := h
  rw [List.mem_map] at hr
  obtain ⟨b, hb, rfl⟩ := hr
  exact ⟨b, hb, mem_runBind ho⟩

theorem bindGroup_obs_of_ok {s : StrMap} {b : BindSpec} {v : ℚ}
    {specs : List BindSpec} (hb : b ∈ specs)
    (h : pfun b.pk s b.key = .ok v) :
    (⟨b.desc, b.vt, v, b.labels⟩ : Obs) ∈ (bindGroup s specs).1 := by
  unfold bindGroup
  rw [mem_collectObs]
  refine ⟨runBind s b, List.mem_map_of_mem _ hb, ?_⟩
  simp [runBind_ok h]

/-! ## Descriptor inventories of the translator's chunks -/

def extstoreDescs : List MetricDesc :=
  [.extstoreCompactLost, .extstoreCompactRescues, .extstoreCompactSkipped,
   .extstorePageAllocs, .extstorePageEvictions, .extstorePageReclaims,
   .extstorePagesFree, .extstorePagesUsed, .extstoreObjectsEvicted,
   .extstoreObjectsRead, .extstoreObjectsWritten, .extstoreObjectsUsed,
   .extstoreBytesEvicted, .extstoreBytesWritten, .extstoreBytesRead,
   .extstoreBytesUsed, .extstoreBytesFragmented, .extstoreBytesLimit,
   .extstoreIOQueueDepth]

theorem extstoreSpecs_descs (server : String) :
    (extstoreSpecs server).map BindSpec.desc = extstoreDescs := rfl

def mainDescs : List MetricDesc :=
  [.rusageUser, .rusageSystem, .currentBytes, .limitBytes, .items,
   .itemsTotal, .bytesRead, .bytesWritten, .currentConnections,
   .connectionsTotal, .rejectedConnections, .connsYieldedTotal,
   .listenerDisabledTotal, .evictions, .reclaimed, .lruCrawlerStarts,
   .lruCrawlerItemsChecked, .lruCrawlerReclaimed, .lruCrawlerMovesToCold,
   .lruCrawlerMovesToWarm, .lruCrawlerMovesWithinLru, .malloced,
   .acceptingConnections]

theorem mainSpecs_descs (server : String) :
    (mainSpecs server).map BindSpec.desc = mainDescs := rfl

def itemsDescs : List MetricDesc :=
  [.itemsNumber, .itemsAge, .itemsLruHits]
    ++ itemsCounterMetrics.map Prod.snd ++ itemsGaugeMetrics.map Prod.snd

def slabsDescs : List MetricDesc :=
  [.slabsCommands, .slabsChunkSize, .slabsChunksPerPage, .slabsCurrentPages,
   .slabsCurrentChunks, .slabsChunksUsed, .slabsChunksFree,
   .slabsChunksFreeEnd, .slabsMemRequested]

def crawlerDescs : List MetricDesc :=
  [.lruCrawlerEnabled, .lruCrawlerSleep, .lruCrawlerMaxItems,
   .lruMaintainerThread, .lruHotPercent, .lruWarmPercent,
   .lruHotMaxAgeFactor, .lruWarmMaxAgeFactor]

theorem crawlerSpecs_descs (server : String) :
    (crawlerSpecs server).map BindSpec.desc = crawlerDescs := rfl

/-- Everything `parseStats` can emit for one record. -/
def statsDescs : List MetricDesc :=
  [.version, .commands, .uptime, .time] ++ extstoreDescs ++ mainDescs
    ++ itemsDescs ++ slabsDescs

/-- Everything `parseStatsSettings` can emit for one record. -/
def settingsDescs : List MetricDesc :=
  .maxConnections :: crawlerDescs

/-! ## Chunk characterization lemmas -/

theorem versionChunk_mem {o : Obs} {s : StrMap} {server : String}
    (h : o ∈ (versionChunk s server).1) :
    o = ⟨.version, .gauge, 1, [mlookupD s "version", server]⟩ := by
  simpa [versionChunk] using h

theorem opChunk_mem {o : Obs} {s : StrMap} {server : String}
    (h : o ∈ (opChunk s server).1) :
    o.desc = .commands ∧
      ∃ op ∈ cmdOps, o.labels = [op, "hit", server] ∨ o.labels = [op, "miss", server] := by
  unfold opChunk at h
  rw [seqChunks_obs, mem_collectObs] at h
  obtain ⟨r, hr, ho⟩ := h
  rw [List.mem_map] at hr
  obtain ⟨op, hop, rfl⟩ := hr
  obtain ⟨b, hb, hd, _, hl⟩ := mem_bindGroup ho
  simp only [List.mem_cons, List.mem_singleton, List.not_mem_nil, or_false] at hb
  rcases hb with rfl | rfl
  · exact ⟨hd, op, hop, .inl hl⟩
  · exact ⟨hd, op, hop, .inr hl⟩

theorem extstoreChunk_mem {o : Obs} {s : StrMap} {server : String}
    (h : o ∈ (extstoreChunk s server).1) :
    (mlookup s "extstore_limit_maxbytes").isSome = true ∧ o.desc ∈ extstoreDescs := by
  unfold extstoreChunk at h
  split at h
  · obtain ⟨b, hb, hd, _, _⟩ := mem_bindGroup h
    refine ⟨by assumption, ?_⟩
    rw [hd, ← extstoreSpecs_descs server]
    exact List.mem_map_of_mem _ hb
  · simp at h

theorem derivedChunk_mem {o : Obs} {s : StrMap} {server : String}
    (h : o ∈ (derivedChunk s server).1) :
    ∃ setCmd cas, parse s "cmd_set" = .ok setCmd ∧
      sum s ["cas_misses", "cas_hits", "cas_badval"] = .ok cas ∧
      o = ⟨.commands, .counter, setCmd - cas, ["set", "hit", server]⟩ := by
  unfold derivedChunk at h
  split at h
  · simp at h
  · split at h
    · simp at h
    · simp only [List.mem_singleton] at h
      exact ⟨_, _, by assumption, by assumption, h⟩

theorem itemsSlabChunk_mem {o : Obs} {slab : Nat} {u : StrMap} {server : String}
    (h : o ∈ (itemsSlabChunk slab u server).1) : o.desc ∈ itemsDescs := by
  unfold itemsSlabChunk at h
  rw [seqChunks_obs, mem_collectObs] at h
  obtain ⟨r, hr, ho⟩ := h
  simp only [List.mem_append, List.mem_singleton] at hr
  rcases hr with (rfl | hr) | hr
  · obtain ⟨b, hb, hd, _, _⟩ := mem_bindGroup ho
    simp only [itemsFixedSpecs, List.mem_cons, List.not_mem_nil, or_false] at hb
    rcases hb with rfl | rfl | rfl | rfl | rfl | rfl <;> rw [hd] <;> dsimp only <;> decide
  · rw [List.mem_filterMap] at hr
    obtain ⟨p, hp, hif⟩ := hr
    split at hif
    · obtain ⟨rfl⟩ := Option.some.inj hif
      obtain ⟨hd, _, _⟩ := mem_runBind ho
      rw [hd]
      simp only [itemsDescs, List.mem_append]
      exact .inl (.inr (List.mem_map_of_mem _ hp))
    · exact absurd hif (by simp)
  · rw [List.mem_filterMap] at hr
    obtain ⟨p, hp, hif⟩ := hr
    split at hif
    · obtain ⟨rfl⟩ := Option.some.inj hif
      obtain ⟨hd, _, _⟩ := mem_runBind ho
      rw [hd]
      simp only [itemsDescs, List.mem_append]
      exact .inr (List.mem_map_of_mem _ hp)
    · exact absurd hif (by simp)

theorem slabDerivedChunk_mem {o : Obs} {v : StrMap} {sl server : String}
    (h : o ∈ (slabDerivedChunk v sl server).1) :
    ∃ setCmd cas, parse v "cmd_set" = .ok setCmd ∧
      sum v ["cas_hits", "cas_badval"] = .ok cas ∧
      o = ⟨.slabsCommands, .counter, setCmd - cas, [sl, "set", "hit", server]⟩ := by
  unfold slabDerivedChunk at h
  split at h
  · simp at h
  · split at h
    · simp at h
    · simp only [List.mem_singleton] at h
      exact ⟨_, _, by assumption, by assumption, h⟩

theorem slabsSlabChunk_mem {o : Obs} {slab : Nat} {v : StrMap} {server : String}
    (h : o ∈ (slabsSlabChunk slab v server).1) : o.desc ∈ slabsDescs := by
  unfold slabsSlabChunk at h
  rw [seqChunks_obs, mem_collectObs] at h
  obtain ⟨r, hr, ho⟩ := h
  simp only [List.mem_append, List.mem_singleton, List.mem_map] at hr
  rcases hr with ((⟨op, _, rfl⟩ | rfl) | rfl) | rfl
  · rw [(mem_runBind ho).1]; dsimp only; decide
  · rw [(mem_runBind ho).1]; dsimp only; decide
  · obtain ⟨_, _, _, _, rfl⟩ := slabDerivedChunk_mem ho
    dsimp only; decide
  · obtain ⟨b, hb, hd, _, _⟩ := mem_bindGroup ho
    simp only [slabsFixedSpecs, List.mem_cons, List.not_mem_nil, or_false] at hb
    rcases hb with rfl | rfl | rfl | rfl | rfl | rfl | rfl | rfl <;> rw [hd] <;> dsimp only <;> decide

theorem mem_bindGroup_desc {o : Obs} {s : StrMap} {specs : List BindSpec}
    (h : o ∈ (bindGroup s specs).1) : o.desc ∈ specs.map BindSpec.desc := by
  obtain ⟨b, hb, hd, _, _⟩ := mem_bindGroup h
  rw [hd]
  exact List.mem_map_of_mem _ hb

theorem basicSpecs_descs (server : String) :
    (basicSpecs server).map BindSpec.desc
      = [.uptime, .time, .commands, .commands] := rfl

/-! ## Record-level assembly lemmas -/

theorem statsRecord_mem_iff {o : Obs} {t : ServerStats} {server : String} :
    o ∈ (statsRecordObsErr t server).1 ↔
      o ∈ (versionChunk t.stats server).1 ∨
      o ∈ (opChunk t.stats server).1 ∨
      o ∈ (bindGroup t.stats (basicSpecs server)).1 ∨
      o ∈ (derivedChunk t.stats server).1 ∨
      o ∈ (extstoreChunk t.stats server).1 ∨
      o ∈ (bindGroup t.stats (mainSpecs server)).1 ∨
      (∃ p ∈ t.items, o ∈ (itemsSlabChunk p.1 p.2 server).1) ∨
      (∃ p ∈ t.slabs, o ∈ (slabsSlabChunk p.1 p.2 server).1) := by
  unfold statsRecordObsErr
  rw [seqChunks_obs, mem_collectObs]
  constructor
  · rintro ⟨r, hr, ho⟩
    simp only [List.mem_cons, List.not_mem_nil, or_false] at hr
    rcases hr with rfl | rfl | rfl | rfl | rfl | rfl | rfl | rfl
    · exact .inl ho
    · exact .inr (.inl ho)
    · exact .inr (.inr (.inl ho))
    · exact .inr (.inr (.inr (.inl ho)))
    · exact .inr (.inr (.inr (.inr (.inl ho))))
    · exact .inr (.inr (.inr (.inr (.inr (.inl ho)))))
    · rw [seqChunks_obs, mem_collectObs] at ho
      obtain ⟨r', hr', ho'⟩ := ho
      rw [List.mem_map] at hr'
      obtain ⟨p, hp, rfl⟩ := hr'
      exact .inr (.inr (.inr (.inr (.inr (.inr (.inl ⟨p, hp, ho'⟩))))))
    · rw [seqChunks_obs, mem_collectObs] at ho
      obtain ⟨r', hr', ho'⟩ := ho
      rw [List.mem_map] at hr'
      obtain ⟨p, hp, rfl⟩ := hr'
      exact .inr (.inr (.inr (.inr (.inr (.inr (.inr ⟨p, hp, ho'⟩))))))
  · rintro (ho | ho | ho | ho | ho | ho | ⟨p, hp, ho⟩ | ⟨p, hp, ho⟩)
    · exact ⟨_, by simp, ho⟩
    · exact ⟨_, by simp, ho⟩
    · exact ⟨_, by simp, ho⟩
    · exact ⟨_, by simp, ho⟩
    · exact ⟨_, by simp, ho⟩
    · exact ⟨_, by simp, ho⟩
    · refine ⟨seqChunks (t.items.map (fun p => itemsSlabChunk p.1 p.2 server)), by simp, ?_⟩
      rw [seqChunks_obs, mem_collectObs]
      exact ⟨_, List.mem_map_of_mem _ hp, ho⟩
    · refine ⟨seqChunks (t.slabs.map (fun p => slabsSlabChunk p.1 p.2 server)), by simp, ?_⟩
      rw [seqChunks_obs, mem_collectObs]
      exact ⟨_, List.mem_map_of_mem _ hp, ho⟩

theorem basicDescs_sub : ∀ d ∈ [MetricDesc.uptime, .time, .commands, .commands],
    d ∈ statsDescs := by decide

theorem extstoreDescs_sub : ∀ d ∈ extstoreDescs, d ∈ statsDescs := by decide

theorem mainDescs_sub : ∀ d ∈ mainDescs, d ∈ statsDescs := by decide

theorem itemsDescs_sub : ∀ d ∈ itemsDescs, d ∈ statsDescs := by decide

theorem slabsDescs_sub : ∀ d ∈ slabsDescs, d ∈ statsDescs := by decide

/-- Every observation a stats record ever produces carries one of the stats
descriptors (in particular, never `up`). -/
theorem statsRecord_desc {o : Obs} {t : ServerStats} {server : String}
    (h : o ∈ (statsRecordObsErr t server).1) : o.desc ∈ statsDescs := by
  rcases statsRecord_mem_iff.1 h with h | h | h | h | h | h | ⟨p, _, h⟩ | ⟨p, _, h⟩
  · rw [versionChunk_mem h]; dsimp only; decide
  · rw [(opChunk_mem h).1]; decide
  · have hd := mem_bindGroup_desc h
    rw [basicSpecs_descs] at hd
    exact basicDescs_sub _ hd
  · obtain ⟨_, _, _, _, rfl⟩ := derivedChunk_mem h
    dsimp only; decide
  · exact extstoreDescs_sub _ (extstoreChunk_mem h).2
  · have hd := mem_bindGroup_desc h
    rw [mainSpecs_descs] at hd
    exact mainDescs_sub _ hd
  · exact itemsDescs_sub _ (itemsSlabChunk_mem h)
  · exact slabsDescs_sub _ (slabsSlabChunk_mem h)

/-- The stats descriptors with the extstore family removed. -/
def statsDescsNoExt : List MetricDesc :=
  [.version, .commands, .uptime, .time] ++ mainDescs ++ itemsDescs ++ slabsDescs

theorem basicDescs_sub_noext :
    ∀ d ∈ [MetricDesc.uptime, .time, .commands, .commands],
      d ∈ statsDescsNoExt := by decide

theorem mainDescs_sub_noext : ∀ d ∈ mainDescs, d ∈ statsDescsNoExt := by decide

theorem itemsDescs_sub_noext : ∀ d ∈ itemsDescs, d ∈ statsDescsNoExt := by decide

theorem slabsDescs_sub_noext : ∀ d ∈ slabsDescs, d ∈ statsDescsNoExt := by decide

/-- When `extstore_limit_maxbytes` is absent from the record, every emitted
observation carries a non-extstore descriptor. -/
theorem statsRecord_desc_noext {o : Obs} {t : ServerStats} {server : String}
    (habs : mlookup t.stats "extstore_limit_maxbytes" = none)
    (h : o ∈ (statsRecordObsErr t server).1) : o.desc ∈ statsDescsNoExt := by
  rcases statsRecord_mem_iff.1 h with h | h | h | h | h | h | ⟨p, _, h⟩ | ⟨p, _, h⟩
  · rw [versionChunk_mem h]; dsimp only; decide
  · rw [(opChunk_mem h).1]; decide
  · have hd := mem_bindGroup_desc h
    rw [basicSpecs_descs] at hd
    exact basicDescs_sub_noext _ hd
  · obtain ⟨_, _, _, _, rfl⟩ := derivedChunk_mem h
    dsimp only; decide
  · have := (extstoreChunk_mem h).1
    rw [habs] at this
    simp at this
  · have hd := mem_bindGroup_desc h
    rw [mainSpecs_descs] at hd
    exact mainDescs_sub_noext _ hd
  · exact itemsDescs_sub_noext _ (itemsSlabChunk_mem h)
  · exact slabsDescs_sub_noext _ (slabsSlabChunk_mem h)

theorem parseStats_mem_iff {o : Obs} {stats : List ServerStats} {server : String} :
    o ∈ (parseStats stats server).1 ↔
      ∃ t ∈ stats, o ∈ (statsRecordObsErr t server).1 := by
  unfold parseStats
  rw [seqChunks_obs, mem_collectObs]
  constructor
  · rintro ⟨r, hr, ho⟩
    rw [List.mem_map] at hr
    obtain ⟨t, ht, rfl⟩ := hr
    exact ⟨t, ht, ho⟩
  · rintro ⟨t, ht, ho⟩
    exact ⟨_, List.mem_map_of_mem _ ht, ho⟩

theorem parseStats_err_isSome_of_mem {stats : List ServerStats} {server : String}
    {t : ServerStats} (ht : t ∈ stats)
    (h : (statsRecordObsErr t server).2.isSome = true) :
    (parseStats stats server).2.isSome = true := by
  unfold parseStats
  rw [seqChunks_err_isSome, List.any_eq_true]
  exact ⟨_, List.mem_map_of_mem _ ht, h⟩

theorem statsRecord_err_isSome_of_derived {t : ServerStats} {server : String}
    (h : (derivedChunk t.stats server).2.isSome = true) :
    (statsRecordObsErr t server).2.isSome = true := by
  unfold statsRecordObsErr
  rw [seqChunks_err_isSome]
  simp only [List.any_cons, List.any_nil, Bool.or_eq_true, Bool.or_false]
  tauto

theorem settingsRecord_mem_iff {o : Obs} {settings : StrMap} {server : String} :
    o ∈ (settingsRecordObsErr settings server).1 ↔
      o ∈ (runBind settings (maxconnsSpec server)).1 ∨
      (mlookup settings "lru_crawler" = some "yes" ∧
        o ∈ (bindGroup settings (crawlerSpecs server)).1) := by
  unfold settingsRecordObsErr
  rw [seqChunks_obs, mem_collectObs]
  constructor
  · rintro ⟨r, hr, ho⟩
    simp only [List.mem_cons, List.not_mem_nil, or_false] at hr
    rcases hr with rfl | rfl
    · exact .inl ho
    · split at ho
      · exact .inr ⟨by assumption, ho⟩
      · simp at ho
  · rintro (ho | ⟨hc, ho⟩)
    · exact ⟨_, by simp, ho⟩
    · refine ⟨bindGroup settings (crawlerSpecs server), ?_, ho⟩
      simp [hc]

theorem settingsRecord_desc {o : Obs} {settings : StrMap} {server : String}
    (h : o ∈ (settingsRecordObsErr settings server).1) :
    o.desc ∈ settingsDescs := by
  rcases settingsRecord_mem_iff.1 h with h | ⟨_, h⟩
  · rw [(mem_runBind h).1]; dsimp only [maxconnsSpec]; decide
  · have hd := mem_bindGroup_desc h
    rw [crawlerSpecs_descs] at hd
    exact (show ∀ d ∈ crawlerDescs, d ∈ settingsDescs by decide) _ hd

theorem parseStatsSettings_mem_iff {o : Obs} {l : List StrMap} {server : String} :
    o ∈ (parseStatsSettings l server).1 ↔
      ∃ s ∈ l, o ∈ (settingsRecordObsErr s server).1 := by
  unfold parseStatsSettings
  rw [seqChunks_obs, mem_collectObs]
  constructor
  · rintro ⟨r, hr, ho⟩
    rw [List.mem_map] at hr
    obtain ⟨s, hs, rfl⟩ := hr
    exact ⟨s, hs, ho⟩
  · rintro ⟨s, hs, ho⟩
    exact ⟨_, List.mem_map_of_mem _ hs, ho⟩

theorem parseStats_no_up {stats : List ServerStats} {server : String} :
    ∀ o ∈ (parseStats stats server).1, o.desc ≠ MetricDesc.up := by
  intro o ho he
  obtain ⟨t, _, ho⟩ := parseStats_mem_iff.1 ho
  have := statsRecord_desc ho
  rw [he] at this
  exact absurd this (by decide)

theorem parseStatsSettings_no_up {l : List StrMap} {server : String} :
    ∀ o ∈ (parseStatsSettings l server).1, o.desc ≠ MetricDesc.up := by
  intro o ho he
  obtain ⟨s, _, ho⟩ := parseStatsSettings_mem_iff.1 ho
  have := settingsRecord_desc ho
  rw [he] at this
  exact absurd this (by decide)

/-- **C1.** Per collection of one configured server: exactly one
reachability (`up`) observation is emitted; its value is `serverUpValue`,
which is 1 exactly when the connection was established (`memcache.New`
succeeded, `conn = some c`) and both the stats pass and the settings pass
reported no failure (for each pass: the fetch returned without error and the
translator's `parseError` stayed nil), and 0 otherwise; and when the
connection fails the 0-valued `up` observation is the *only* observation
emitted for that server. -/
theorem c1_up_reachability (conn : Option MemcacheClient) (server : String) :
    ((CollectServer conn server).countP (fun o => o.desc == MetricDesc.up)) = 1 ∧
    (⟨.up, .gauge, serverUpValue conn server, [server]⟩ : Obs) ∈ CollectServer conn server ∧
    (serverUpValue conn server = 1 ↔
      ∃ c, conn = some c ∧ fetchOk c.statsRes = true ∧ fetchOk c.settingsRes = true ∧
        (parseStats (fetchedStats c) server).2 = none ∧
        (parseStatsSettings (fetchedSettings c) server).2 = none) ∧
    (serverUpValue conn server = 1 ∨ serverUpValue conn server = 0) ∧
    (conn = none → CollectServer conn server = [⟨.up, .gauge, 0, [server]⟩]) := by
  cases conn with
  | none =>
    refine ⟨by simp [CollectServer], ?_, ?_, .inr rfl, fun _ => rfl⟩
    · simp [CollectServer, serverUpValue]
    · constructor
      · intro h
        exact absurd h (by norm_num [serverUpValue])
      · rintro ⟨c, hc, -⟩
        exact absurd hc (by simp)
  | some c =>
    refine ⟨?_, ?_, ?_, ?_, fun h => by simp at h⟩
    · show ((parseStats (fetchedStats c) server).1
          ++ (parseStatsSettings (fetchedSettings c) server).1
          ++ ([⟨.up, .gauge, serverUpValue (some c) server, [server]⟩] : List Obs)).countP
          (fun o => o.desc == MetricDesc.up) = 1
      rw [List.countP_append, List.countP_append]
      have h1 : (parseStats (fetchedStats c) server).1.countP
          (fun o => o.desc == MetricDesc.up) = 0 := by
        rw [List.countP_eq_zero]
        intro o ho
        simpa using parseStats_no_up o ho
      have h2 : (parseStatsSettings (fetchedSettings c) server).1.countP
          (fun o => o.desc == MetricDesc.up) = 0 := by
        rw [List.countP_eq_zero]
        intro o ho
        simpa using parseStatsSettings_no_up o ho
      rw [h1, h2]
      simp [List.countP_cons]
    · show _ ∈ (parseStats (fetchedStats c) server).1
          ++ (parseStatsSettings (fetchedSettings c) server).1
          ++ ([⟨.up, .gauge, serverUpValue (some c) server, [server]⟩] : List Obs)
      simp
    · show (if fetchOk c.statsRes && fetchOk c.settingsRes
          && (parseStats (fetchedStats c) server).2.isNone
          && (parseStatsSettings (fetchedSettings c) server).2.isNone
          then (1 : ℚ) else 0) = 1 ↔ _
      split
      · rename_i hb
        simp only [Bool.and_eq_true, Option.isNone_iff_eq_none] at hb
        constructor
        · intro _
          exact ⟨c, rfl, hb.1.1.1, hb.1.1.2, hb.1.2, hb.2⟩
        · intro _
          rfl
      · rename_i hb
        constructor
        · intro h
          exact absurd h (by norm_num)
        · rintro ⟨c', hc', h1, h2, h3, h4⟩
          obtain rfl := Option.some.inj hc'
          refine absurd ?_ hb
          simp only [Bool.and_eq_true, Option.isNone_iff_eq_none]
          exact ⟨⟨⟨h1, h2⟩, h3⟩, h4⟩
    · by_cases hb : (fetchOk c.statsRes && fetchOk c.settingsRes
          && (parseStats (fetchedStats c) server).2.isNone
          && (parseStatsSettings (fetchedSettings c) server).2.isNone) = true
      · exact .inl (by simp [serverUpValue, hb])
      · exact .inr (by simp [serverUpValue, hb])

/-- Witness for C1 at concrete inputs: a failed connection yields exactly
the 0-valued `up` observation, and a connected client with empty records
yields exactly one `up` observation. -/
theorem c1_up_reachability_witness :
    CollectServer none "s1" = [⟨.up, .gauge, 0, ["s1"]⟩] ∧
    ((CollectServer (some ⟨.ok [], .ok []⟩) "s1").countP
      (fun o => o.desc == MetricDesc.up)) = 1 :=
  ⟨(c1_up_reachability none "s1").2.2.2.2 rfl,
   (c1_up_reachability (some ⟨.ok [], .ok []⟩) "s1").1⟩

/-! ## Scalar parser lemmas -/

theorem parse_ok_iff {s : StrMap} {key : String} {q : ℚ} :
    parse s key = .ok q ↔
      ∃ v, mlookup s key = some v ∧ parseGoFloat v = some q := by
  unfold parse
  cases hl : mlookup s key with
  | none => simp
  | some v =>
    cases hp : parseGoFloat v with
    | none => simp [hp]
    | some q' => simp [hp]

theorem sum_nil (s : StrMap) : sum s [] = .ok 0 := rfl

theorem sum_ok_cons {s : StrMap} {key : String} {ks : List String} {q r : ℚ}
    (h : parse s key = .ok q) (hr : sum s ks = .ok r) :
    sum s (key :: ks) = .ok (q + r) := by
  obtain ⟨v, hl, hp⟩ := parse_ok_iff.1 h
  unfold sum
  simp only [hl, hp, hr]

theorem sum_ok_parse {s : StrMap} {ks : List String} {r : ℚ}
    (h : sum s ks = .ok r) : ∀ k ∈ ks, ∃ q, parse s k = .ok q := by
  induction ks generalizing r with
  | nil => simp
  | cons key ks ih =>
    intro k hk
    unfold sum at h
    cases hl : mlookup s key with
    | none => simp only [hl] at h; exact absurd h (by simp)
    | some v =>
      simp only [hl] at h
      cases hp : parseGoFloat v with
      | none => simp only [hp] at h; exact absurd h (by simp)
      | some q =>
        simp only [hp] at h
        cases hs : sum s ks with
        | error e => simp only [hs] at h; exact absurd h (by simp)
        | ok r' =>
          rcases List.mem_cons.1 hk with rfl | hk'
          · exact ⟨q, parse_ok_iff.2 ⟨v, hl, hp⟩⟩
          · exact ih hs k hk'

theorem derivedChunk_fail {s : StrMap} {server : String}
    (h : (∀ q : ℚ, parse s "cmd_set" ≠ .ok q) ∨
         (∀ r : ℚ, sum s ["cas_misses", "cas_hits", "cas_badval"] ≠ .ok r)) :
    (derivedChunk s server).1 = [] ∧ (derivedChunk s server).2.isSome = true := by
  unfold derivedChunk
  cases hc : parse s "cmd_set" with
  | error e => simp
  | ok a =>
    cases hs : sum s ["cas_misses", "cas_hits", "cas_badval"] with
    | error e => simp
    | ok r =>
      rcases h with h | h
      · exact absurd hc (h a)
      · exact absurd hs (h r)

/-! ## Claims C5 and C2 -/

/-- **C5.** For every raw record and probed field key absent from the record,
a binder call for that key is a no-op: it emits no observation and returns no
error, for each of the three designated parsers. -/
theorem c5_absent_key_noop (s : StrMap) (key : String) (d : MetricDesc)
    (vt : ValueType) (pk : PKind) (labels : List String)
    (h : mlookup s key = none) :
    extractValueAndNewMetric d vt (pfun pk) s key labels = ([], none) :=
  runBind_absent (b := ⟨d, vt, pk, key, labels⟩) h

/-- Witness for C5: the record `{bytes ↦ "17"}` lacks `rusage_user`; binding
it with each designated parser emits nothing and reports no error. -/
theorem c5_absent_key_noop_witness :
    mlookup [("bytes", "17")] "rusage_user" = none ∧
    extractValueAndNewMetric .rusageUser .counter (pfun .timeval)
      [("bytes", "17")] "rusage_user" ["m"] = ([], none) ∧
    extractValueAndNewMetric .currentBytes .gauge (pfun .num)
      [("bytes", "17")] "curr_items" ["m"] = ([], none) ∧
    extractValueAndNewMetric .lruCrawlerEnabled .gauge (pfun .bool)
      [("bytes", "17")] "lru_crawler" ["m"] = ([], none) :=
  ⟨by decide,
   c5_absent_key_noop _ _ _ _ _ _ (by decide),
   c5_absent_key_noop _ _ _ _ _ _ (by decide),
   c5_absent_key_noop _ _ _ _ _ _ (by decide)⟩

/-- **C2.** For every stats record: when `cmd_set`, `cas_hits`, `cas_misses`
and `cas_badval` all parse, the translator emits the derived commands
observation labelled `("set", "hit")` with value
`cmd_set − (cas_hits + cas_misses + cas_badval)`; when any of the four is
absent or malformed, no `("set", "hit")`-labelled commands observation is
emitted at all and the record's outcome carries a failure. -/
theorem c2_derived_plain_set (t : ServerStats) (server : String) (a b c d : ℚ) :
    (parse t.stats "cmd_set" = .ok a → parse t.stats "cas_hits" = .ok b →
     parse t.stats "cas_misses" = .ok c → parse t.stats "cas_badval" = .ok d →
      (⟨.commands, .counter, a - (b + c + d), ["set", "hit", server]⟩ : Obs)
        ∈ (statsRecordObsErr t server).1) ∧
    ((∃ k ∈ ["cmd_set", "cas_hits", "cas_misses", "cas_badval"],
        ∀ q : ℚ, parse t.stats k ≠ .ok q) →
      (∀ o ∈ (statsRecordObsErr t server).1,
        ¬(o.desc = .commands ∧ o.labels = ["set", "hit", server])) ∧
      (statsRecordObsErr t server).2.isSome = true) := by
  constructor
  · intro h1 h2 h3 h4
    have hsum : sum t.stats ["cas_misses", "cas_hits", "cas_badval"]
        = .ok (c + (b + (d + 0))) :=
      sum_ok_cons h3 (sum_ok_cons h2 (sum_ok_cons h4 (sum_nil _)))
    have hmem : (⟨.commands, .counter, a - (c + (b + (d + 0))),
        ["set", "hit", server]⟩ : Obs) ∈ (derivedChunk t.stats server).1 := by
      unfold derivedChunk
      rw [h1, hsum]
      simp
    have heq : a - (c + (b + (d + 0))) = a - (b + c + d) := by ring
    rw [heq] at hmem
    exact statsRecord_mem_iff.2 (.inr (.inr (.inr (.inl hmem))))
  · intro hex
    have hderiv : (derivedChunk t.stats server).1 = [] ∧
        (derivedChunk t.stats server).2.isSome = true := by
      refine derivedChunk_fail ?_
      obtain ⟨k, hk, hfail⟩ := hex
      simp only [List.mem_cons, List.not_mem_nil, or_false] at hk
      rcases hk with rfl | rfl | rfl | rfl
      · exact .inl hfail
      · refine .inr (fun r hs => ?_)
        obtain ⟨q, hq⟩ := sum_ok_parse hs "cas_hits" (by simp)
        exact hfail q hq
      · refine .inr (fun r hs => ?_)
        obtain ⟨q, hq⟩ := sum_ok_parse hs "cas_misses" (by simp)
        exact hfail q hq
      · refine .inr (fun r hs => ?_)
        obtain ⟨q, hq⟩ := sum_ok_parse hs "cas_badval" (by simp)
        exact hfail q hq
    refine ⟨?_, statsRecord_err_isSome_of_derived hderiv.2⟩
    rintro o ho ⟨hd, hl⟩
    rcases statsRecord_mem_iff.1 ho with h | h | h | h | h | h | ⟨p, _, h⟩ | ⟨p, _, h⟩
    · have hv := versionChunk_mem h
      subst hv
      simp at hd
    · obtain ⟨_, op, hop, hl2 | hl2⟩ := opChunk_mem h <;> rw [hl] at hl2
      · obtain ⟨hop', -⟩ := List.cons.inj hl2
        subst hop'
        exact absurd hop (by decide)
      · obtain ⟨-, hl3⟩ := List.cons.inj hl2
        obtain ⟨hbad, -⟩ := List.cons.inj hl3
        simp at hbad
    · obtain ⟨b', hb, hdd, -, hlb⟩ := mem_bindGroup h
      simp only [basicSpecs, List.mem_cons, List.not_mem_nil, or_false] at hb
      rcases hb with rfl | rfl | rfl | rfl
      · rw [hdd] at hd; simp at hd
      · rw [hdd] at hd; simp at hd
      · rw [hl] at hlb; simp at hlb
      · rw [hl] at hlb; simp at hlb
    · rw [hderiv.1] at h
      simp at h
    · have := (extstoreChunk_mem h).2
      rw [hd] at this
      exact absurd this (by decide)
    · have hdm := mem_bindGroup_desc h
      rw [mainSpecs_descs] at hdm
      rw [hd] at hdm
      exact absurd hdm (by decide)
    · have := itemsSlabChunk_mem h
      rw [hd] at this
      exact absurd this (by decide)
    · have := slabsSlabChunk_mem h
      rw [hd] at this
      exact absurd this (by decide)

/-! ## Digit-string and split lemmas -/

/-- The value of a signed decimal integer string, when it is one. -/
def intCharsVal (l : List Char) : Option Int :=
  match l with
  | [] => none
  | c :: r =>
    if c = '-' then
      if r ≠ [] ∧ r.all isDigitChar then some (-(digitsToNat r : Int)) else none
    else if c = '+' then
      if r ≠ [] ∧ r.all isDigitChar then some (digitsToNat r : Int) else none
    else
      if (c :: r).all isDigitChar then some (digitsToNat (c :: r) : Int) else none

theorem readDigits_all {l : List Char} (h : l.all isDigitChar = true) :
    readDigits l = (l, []) := by
  induction l with
  | nil => rfl
  | cons c r ih =>
    rw [List.all_cons, Bool.and_eq_true] at h
    simp [readDigits, h.1, ih h.2]

theorem mantissaVal_int (ip : List Char) :
    mantissaVal ip [] = (digitsToNat ip : ℚ) := by
  simp [mantissaVal, digitsToNat]

theorem parseUnsignedFloat_digits {l : List Char} (hne : l ≠ [])
    (h : l.all isDigitChar = true) :
    parseUnsignedFloat l = some ((digitsToNat l : ℚ)) := by
  unfold parseUnsignedFloat
  rw [readDigits_all h]
  cases l with
  | nil => exact absurd rfl hne
  | cons c r => simp [withExp, mantissaVal_int]

theorem parseGoFloatChars_digits {l : List Char} (hne : l ≠ [])
    (h : l.all isDigitChar = true) :
    parseGoFloatChars l = some ((digitsToNat l : ℚ)) := by
  cases l with
  | nil => exact absurd rfl hne
  | cons c r =>
    have hc : isDigitChar c = true := by
      rw [List.all_cons, Bool.and_eq_true] at h
      exact h.1
    show (if c = '+' then parseUnsignedFloat r
      else if c = '-' then (parseUnsignedFloat r).map (fun q => -q)
      else parseUnsignedFloat (c :: r)) = some ((digitsToNat (c :: r) : ℚ))
    rw [if_neg (by rintro rfl; exact absurd hc (by decide)),
        if_neg (by rintro rfl; exact absurd hc (by decide))]
    exact parseUnsignedFloat_digits hne h

theorem parseGoFloatChars_intChars {l : List Char} {z : Int}
    (h : intCharsVal l = some z) : parseGoFloatChars l = some ((z : ℚ)) := by
  cases l with
  | nil => simp [intCharsVal] at h
  | cons c r =>
    simp only [intCharsVal] at h
    show (if c = '+' then parseUnsignedFloat r
      else if c = '-' then (parseUnsignedFloat r).map (fun q => -q)
      else parseUnsignedFloat (c :: r)) = some ((z : ℚ))
    by_cases hm : c = '-'
    · subst hm
      rw [if_neg (by decide), if_pos rfl]
      rw [if_pos rfl] at h
      split at h
      · rename_i hr
        have hz := Option.some.inj h
        rw [parseUnsignedFloat_digits hr.1 hr.2]
        subst hz
        simp only [Option.map_some']
        norm_cast
      · simp at h
    · by_cases hp : c = '+'
      · subst hp
        rw [if_pos rfl]
        rw [if_neg (by decide), if_pos rfl] at h
        split at h
        · rename_i hr
          have hz := Option.some.inj h
          rw [parseUnsignedFloat_digits hr.1 hr.2]
          subst hz
          norm_cast
        · simp at h
      · rw [if_neg hp, if_neg hm]
        rw [if_neg hm, if_neg hp] at h
        split at h
        · rename_i hall
          have hz := Option.some.inj h
          rw [parseUnsignedFloat_digits (by simp) hall]
          subst hz
          norm_cast
        · simp at h

theorem intCharsVal_no_dot {l : List Char} {z : Int}
    (h : intCharsVal l = some z) : '.' ∉ l := by
  cases l with
  | nil => simp
  | cons c r =>
    simp only [intCharsVal] at h
    have hfacts : (c = '-' ∨ c = '+' ∨ isDigitChar c = true) ∧
        (∀ x ∈ r, isDigitChar x = true) := by
      by_cases hm : c = '-'
      · rw [if_pos hm] at h
        split at h
        · rename_i hcond
          exact ⟨.inl hm, fun x hx => List.all_eq_true.1 hcond.2 x hx⟩
        · simp at h
      · rw [if_neg hm] at h
        by_cases hp : c = '+'
        · rw [if_pos hp] at h
          split at h
          · rename_i hcond
            exact ⟨.inr (.inl hp), fun x hx => List.all_eq_true.1 hcond.2 x hx⟩
          · simp at h
        · rw [if_neg hp] at h
          split at h
          · rename_i hcond
            rw [List.all_cons, Bool.and_eq_true] at hcond
            exact ⟨.inr (.inr hcond.1),
              fun x hx => List.all_eq_true.1 hcond.2 x hx⟩
          · simp at h
    intro hmem
    rcases List.mem_cons.1 hmem with heq | hdot
    · rcases hfacts.1 with hc | hc | hc
      · rw [← heq] at hc
        exact absurd hc (by decide)
      · rw [← heq] at hc
        exact absurd hc (by decide)
      · rw [← heq] at hc
        exact absurd hc (by decide)
    · exact absurd (hfacts.2 _ hdot) (by decide)

theorem splitOnDot_no_dot {l : List Char} (h : '.' ∉ l) :
    splitOnDot l = [l] := by
  induction l with
  | nil => rfl
  | cons c r ih =>
    rw [List.mem_cons, not_or] at h
    unfold splitOnDot
    rw [ih h.2]
    simp [Ne.symm h.1]

theorem splitOnDot_split {a b : List Char} (ha : '.' ∉ a) (hb : '.' ∉ b) :
    splitOnDot (a ++ '.' :: b) = [a, b] := by
  induction a with
  | nil =>
    show splitOnDot ('.' :: b) = [[], b]
    unfold splitOnDot
    rw [splitOnDot_no_dot hb]
    simp
  | cons c r ih =>
    rw [List.mem_cons, not_or] at ha
    show splitOnDot (c :: (r ++ '.' :: b)) = [c :: r, b]
    unfold splitOnDot
    rw [ih ha.2]
    simp [Ne.symm ha.1]

/-! ## Claim C6 -/

/-- **C6.** `parseTimeval` on a present value: a value of the form `S.F`
with `S`, `F` integer strings parses to `S + F/1e6`; a present value that
does not split into exactly two parts on `"."`, or either of whose parts is
rejected by the float parser, fails with the malformed-duration error (and
hence, through the binder, the field is not emitted). -/
theorem c6_parse_timeval (m : StrMap) (key v : String)
    (hv : mlookup m key = some v) :
    (∀ (sa sb : List Char) (S F : Int),
      v.data = sa ++ '.' :: sb → intCharsVal sa = some S →
      intCharsVal sb = some F →
      parseTimeval m key = .ok ((S : ℚ) + (F : ℚ) / 1000000)) ∧
    ((splitOnDot v.data).length ≠ 2 →
      parseTimeval m key = .error .malformedTimeval) ∧
    (∀ a b, splitOnDot v.data = [a, b] →
      parseGoFloatChars a = none ∨ parseGoFloatChars b = none →
      parseTimeval m key = .error .malformedTimeval) := by
  refine ⟨?_, ?_, ?_⟩
  · intro sa sb S F hdata hS hF
    have hsp : splitOnDot v.data = [sa, sb] := by
      rw [hdata]
      exact splitOnDot_split (intCharsVal_no_dot hS) (intCharsVal_no_dot hF)
    simp only [parseTimeval, hv, hsp, parseGoFloatChars_intChars hS,
      parseGoFloatChars_intChars hF]
    norm_num
  · intro hlen
    rcases hsp : splitOnDot v.data with _ | ⟨x, _ | ⟨y, _ | ⟨z, tail⟩⟩⟩
    · simp only [parseTimeval, hv, hsp]
    · simp only [parseTimeval, hv, hsp]
    · rw [hsp] at hlen
      simp at hlen
    · simp only [parseTimeval, hv, hsp]
  · intro a b hsp hfail
    rcases hfail with hfail | hfail
    · simp only [parseTimeval, hv, hsp, hfail]
    · cases hA : parseGoFloatChars a with
      | none => simp only [parseTimeval, hv, hsp, hA]
      | some qa => simp only [parseTimeval, hv, hsp, hA, hfail]

/-- Witness for C6: `rusage_user = "12.345678"` parses to
`12 + 345678/1e6`; `"1.2.3"` (three parts) and `"abc"` paired with a bad
part both fail with the malformed-duration error. -/
theorem c6_parse_timeval_witness :
    parseTimeval [("rusage_user", "12.345678")] "rusage_user"
      = .ok ((12 : ℚ) + (345678 : ℚ) / 1000000) ∧
    parseTimeval [("rusage_user", "1.2.3")] "rusage_user"
      = .error .malformedTimeval ∧
    parseTimeval [("rusage_user", "ab.3")] "rusage_user"
      = .error .malformedTimeval :=
  ⟨(c6_parse_timeval [("rusage_user", "12.345678")] "rusage_user"
      "12.345678" (by decide)).1 ['1', '2'] ['3', '4', '5', '6', '7', '8']
      12 345678 (by decide) (by decide) (by decide),
   (c6_parse_timeval [("rusage_user", "1.2.3")] "rusage_user"
      "1.2.3" (by decide)).2.1 (by decide),
   (c6_parse_timeval [("rusage_user", "ab.3")] "rusage_user"
      "ab.3" (by decide)).2.2 ['a', 'b'] ['3'] (by decide)
      (.inl (by decide))⟩

/-! ## Claim C3 -/

/-- Join helper: an observation of some slab iteration belongs to the whole
record's output. -/
theorem statsRecord_slab_mem {t : ServerStats} {server : String}
    {p : Nat × StrMap} (hp : p ∈ t.slabs) {o : Obs}
    (ho : o ∈ (slabsSlabChunk p.1 p.2 server).1) :
    o ∈ (statsRecordObsErr t server).1 :=
  statsRecord_mem_iff.2 (.inr (.inr (.inr (.inr (.inr (.inr (.inr ⟨p, hp, ho⟩)))))))

theorem slabsSlabChunk_derived_mem {v : StrMap} {slab : Nat} {server : String}
    {setCmd cas : ℚ} (h1 : parse v "cmd_set" = .ok setCmd)
    (h2 : sum v ["cas_hits", "cas_badval"] = .ok cas) :
    (⟨.slabsCommands, .counter, setCmd - cas,
      [toString slab, "set", "hit", server]⟩ : Obs)
      ∈ (slabsSlabChunk slab v server).1 := by
  unfold slabsSlabChunk
  rw [seqChunks_obs, mem_collectObs]
  refine ⟨slabDerivedChunk v (toString slab) server, by simp, ?_⟩
  unfold slabDerivedChunk
  rw [h1, h2]
  simp

/-- Counterexample to **C3** as stated: for the slab record
`{cmd_set ↦ 120, cas_hits ↦ 3, cas_misses ↦ 2, cas_badval ↦ 1}` the code
emits the slab-scoped derived set value `120 − (3 + 1) = 116`, not the
server-level derivation `120 − (3 + 2 + 1) = 114` the claim asserts:
`cas_misses` is omitted from the slab-level subtrahend. -/
theorem c3_counterexample :
    slabDerivedChunk
      [("cmd_set", "120"), ("cas_hits", "3"), ("cas_misses", "2"),
       ("cas_badval", "1")] "1" "m"
      = ([⟨.slabsCommands, .counter, 116, ["1", "set", "hit", "m"]⟩], none) ∧
    (116 : ℚ) ≠ 120 - (3 + 2 + 1) := by
  constructor
  · have hset : parse
        [("cmd_set", "120"), ("cas_hits", "3"), ("cas_misses", "2"),
         ("cas_badval", "1")] "cmd_set" = .ok 120 := by
      refine parse_ok_iff.2 ⟨"120", by decide, ?_⟩
      rw [parseGoFloat, parseGoFloatChars_digits (by decide) (by decide),
          show digitsToNat "120".data = 120 from by decide]
      norm_num
    have hhits : parse
        [("cmd_set", "120"), ("cas_hits", "3"), ("cas_misses", "2"),
         ("cas_badval", "1")] "cas_hits" = .ok 3 := by
      refine parse_ok_iff.2 ⟨"3", by decide, ?_⟩
      rw [parseGoFloat, parseGoFloatChars_digits (by decide) (by decide),
          show digitsToNat "3".data = 3 from by decide]
      norm_num
    have hbad : parse
        [("cmd_set", "120"), ("cas_hits", "3"), ("cas_misses", "2"),
         ("cas_badval", "1")] "cas_badval" = .ok 1 := by
      refine parse_ok_iff.2 ⟨"1", by decide, ?_⟩
      rw [parseGoFloat, parseGoFloatChars_digits (by decide) (by decide),
          show digitsToNat "1".data = 1 from by decide]
      norm_num
    have hsum := sum_ok_cons hhits (sum_ok_cons hbad (sum_nil _))
    simp only [slabDerivedChunk, hset, hsum]
    norm_num
  · norm_num

/-- **C3 corrected.** The slab-scoped derived set observation has value
`cmd_set − (cas_hits + cas_badval)` taken from that slab's record —
`cas_misses` is not part of the slab-level subtrahend, unlike the
server-level derivation. -/
theorem c3_slab_derived_amended (t : ServerStats) (server : String)
    (slab : Nat) (v : StrMap) (a b d : ℚ)
    (hp : (slab, v) ∈ t.slabs)
    (h1 : parse v "cmd_set" = .ok a) (h2 : parse v "cas_hits" = .ok b)
    (h3 : parse v "cas_badval" = .ok d) :
    (⟨.slabsCommands, .counter, a - (b + d),
      [toString slab, "set", "hit", server]⟩ : Obs)
      ∈ (statsRecordObsErr t server).1 := by
  have hsum : sum v ["cas_hits", "cas_badval"] = .ok (b + (d + 0)) :=
    sum_ok_cons h2 (sum_ok_cons h3 (sum_nil _))
  have := @slabsSlabChunk_derived_mem v slab server a (b + (d + 0)) h1 hsum
  rw [show b + (d + 0) = b + d from by ring] at this
  exact statsRecord_slab_mem hp this

/-- Witness for the amended C3: on the slab record above, the emitted
slab-scoped derived set observation has value `116 = 120 − (3 + 1)`. -/
theorem c3_slab_derived_amended_witness :
    (⟨.slabsCommands, .counter, 116, ["1", "set", "hit", "m"]⟩ : Obs)
      ∈ (statsRecordObsErr
          ⟨[], [],
           [(1, [("cmd_set", "120"), ("cas_hits", "3"), ("cas_misses", "2"),
                 ("cas_badval", "1")])]⟩ "m").1 := by
  have h := c3_slab_derived_amended
    ⟨[], [],
     [(1, [("cmd_set", "120"), ("cas_hits", "3"), ("cas_misses", "2"),
           ("cas_badval", "1")])]⟩ "m" 1
    [("cmd_set", "120"), ("cas_hits", "3"), ("cas_misses", "2"),
     ("cas_badval", "1")] 120 3 1 (by simp)
    (by refine parse_ok_iff.2 ⟨"120", by decide, ?_⟩
        rw [parseGoFloat, parseGoFloatChars_digits (by decide) (by decide),
            show digitsToNat "120".data = 120 from by decide]
        norm_num)
    (by refine parse_ok_iff.2 ⟨"3", by decide, ?_⟩
        rw [parseGoFloat, parseGoFloatChars_digits (by decide) (by decide),
            show digitsToNat "3".data = 3 from by decide]
        norm_num)
    (by refine parse_ok_iff.2 ⟨"1", by decide, ?_⟩
        rw [parseGoFloat, parseGoFloatChars_digits (by decide) (by decide),
            show digitsToNat "1".data = 1 from by decide]
        norm_num)
  rw [show (120 : ℚ) - (3 + 1) = 116 from by norm_num] at h
  exact h

/-- Helper: `parse` on a field whose value is a plain digit string. -/
theorem parse_digit_entry {m : StrMap} {key v : String} {n : Nat} {q : ℚ}
    (hv : mlookup m key = some v) (hne : v.data ≠ [])
    (hd : v.data.all isDigitChar = true) (hn : digitsToNat v.data = n)
    (hq : (n : ℚ) = q) :
    parse m key = .ok q := by
  refine parse_ok_iff.2 ⟨v, hv, ?_⟩
  rw [parseGoFloat, parseGoFloatChars_digits hne hd, hn, hq]

/-- Witness for C2: on
`{cmd_set ↦ 120, cas_hits ↦ 3, cas_misses ↦ 2, cas_badval ↦ 1}` the derived
set observation has value `114`; with `cas_badval` removed the record's
outcome carries a failure. -/
theorem c2_derived_plain_set_witness :
    (⟨.commands, .counter, 114, ["set", "hit", "m"]⟩ : Obs)
      ∈ (statsRecordObsErr
          ⟨[("cmd_set", "120"), ("cas_hits", "3"), ("cas_misses", "2"),
            ("cas_badval", "1")], [], []⟩ "m").1 ∧
    (statsRecordObsErr
      ⟨[("cmd_set", "120"), ("cas_hits", "3"), ("cas_misses", "2")], [], []⟩
      "m").2.isSome = true := by
  constructor
  · have h := (c2_derived_plain_set
      ⟨[("cmd_set", "120"), ("cas_hits", "3"), ("cas_misses", "2"),
        ("cas_badval", "1")], [], []⟩ "m" 120 3 2 1).1
      (parse_digit_entry (v := "120") (n := 120) (by decide) (by decide) (by decide)
        (by decide) (by norm_num))
      (parse_digit_entry (v := "3") (n := 3) (by decide) (by decide) (by decide)
        (by decide) (by norm_num))
      (parse_digit_entry (v := "2") (n := 2) (by decide) (by decide) (by decide)
        (by decide) (by norm_num))
      (parse_digit_entry (v := "1") (n := 1) (by decide) (by decide) (by decide)
        (by decide) (by norm_num))
    rw [show (120 : ℚ) - (3 + 2 + 1) = 114 from by norm_num] at h
    exact h
  · refine ((c2_derived_plain_set
      ⟨[("cmd_set", "120"), ("cas_hits", "3"), ("cas_misses", "2")], [], []⟩
      "m" 0 0 0 0).2 ⟨"cas_badval", by simp, ?_⟩).2
    intro q hq
    obtain ⟨v, hl, -⟩ := parse_ok_iff.1 hq
    rw [show mlookup [("cmd_set", "120"), ("cas_hits", "3"),
        ("cas_misses", "2")] "cas_badval" = none from by decide] at hl
    exact absurd hl (by simp)

/-! ## Claim C4 -/

/-- Counterexample to **C4** as stated: the empty stats record has no
present field at all (so certainly no present malformed field), yet
`parseStats` reports a failure: the derived plain-set step records the
`errKeyNotFound` produced by the absent `cmd_set`, and `CollectServer` would
therefore emit a 0-valued reachability observation. -/
theorem c4_counterexample :
    (parseStats [⟨[], [], []⟩] "m").2 = some .keyNotFound := by decide

/-- **C4 corrected.** A missing key is silently skipped by every generic
binder call, and the settings translator never fails merely because keys are
absent; but the stats translator's derived plain-set computation does record
a failure when its inputs are absent: in particular a stats record lacking
`cmd_set` always yields a failed outcome. -/
theorem c4_absent_keys_amended (t : ServerStats) (server : String)
    (s : StrMap) (key : String) (d : MetricDesc) (vt : ValueType)
    (pk : PKind) (labels : List String) :
    (mlookup s key = none →
      extractValueAndNewMetric d vt (pfun pk) s key labels = ([], none)) ∧
    (mlookup t.stats "cmd_set" = none →
      (statsRecordObsErr t server).2.isSome = true) ∧
    (settingsRecordObsErr [] server).2 = none := by
  refine ⟨fun h => runBind_absent (b := ⟨d, vt, pk, key, labels⟩) h, ?_, ?_⟩
  · intro habs
    refine statsRecord_err_isSome_of_derived ?_
    have hp : parse t.stats "cmd_set" = .error .keyNotFound := by
      unfold parse
      rw [habs]
    refine (derivedChunk_fail (.inl (fun q hq => ?_))).2
    rw [hp] at hq
    exact absurd hq (by simp)
  · have h1 : runBind [] (maxconnsSpec server) = ([], none) :=
      runBind_absent rfl
    unfold settingsRecordObsErr
    rw [h1, if_neg (by simp [mlookup])]
    rfl

/-- Witness for the amended C4 at concrete inputs. -/
theorem c4_absent_keys_amended_witness :
    extractValueAndNewMetric .currentBytes .gauge (pfun .num) [] "bytes" ["m"]
      = ([], none) ∧
    (statsRecordObsErr ⟨[], [], []⟩ "m").2.isSome = true ∧
    (settingsRecordObsErr [] "m").2 = none :=
  ⟨(c4_absent_keys_amended ⟨[], [], []⟩ "m" [] "bytes" .currentBytes .gauge
      .num ["m"]).1 rfl,
   (c4_absent_keys_amended ⟨[], [], []⟩ "m" [] "bytes" .currentBytes .gauge
      .num ["m"]).2.1 rfl,
   (c4_absent_keys_amended ⟨[], [], []⟩ "m" [] "bytes" .currentBytes .gauge
      .num ["m"]).2.2⟩

/-! ## Claim C7 -/

/-- **C7.** A stats record lacking `extstore_limit_maxbytes` emits zero
extstore observations, even if other extstore fields are present; when the
key is present (and its value numeric) the extstore group is attempted — in
particular the extstore limit-bytes gauge itself is emitted. -/
theorem c7_extstore_gate (t : ServerStats) (server : String) :
    (mlookup t.stats "extstore_limit_maxbytes" = none →
      ∀ o ∈ (statsRecordObsErr t server).1, o.desc ∉ extstoreDescs) ∧
    (∀ v q, mlookup t.stats "extstore_limit_maxbytes" = some v →
      parseGoFloat v = some q →
      (⟨.extstoreBytesLimit, .gauge, q, [server]⟩ : Obs)
        ∈ (statsRecordObsErr t server).1) := by
  constructor
  · intro habs o ho hin
    have hd := statsRecord_desc_noext habs ho
    exact (show ∀ d ∈ statsDescsNoExt, d ∉ extstoreDescs by decide) _ hd hin
  · intro v q hv hq
    have hparse : pfun .num t.stats "extstore_limit_maxbytes" = .ok q :=
      parse_ok_iff.2 ⟨v, hv, hq⟩
    have hb := @bindGroup_obs_of_ok t.stats
      ⟨.extstoreBytesLimit, .gauge, .num, "extstore_limit_maxbytes", [server]⟩
      q (extstoreSpecs server) (by simp [extstoreSpecs]) hparse
    have hcond : (mlookup t.stats "extstore_limit_maxbytes").isSome = true := by
      rw [hv]; rfl
    have hchunk : (⟨.extstoreBytesLimit, .gauge, q, [server]⟩ : Obs)
        ∈ (extstoreChunk t.stats server).1 := by
      unfold extstoreChunk
      rw [if_pos hcond]
      exact hb
    exact statsRecord_mem_iff.2 (.inr (.inr (.inr (.inr (.inl hchunk)))))

/-- Witness for C7: a record with only other extstore fields emits nothing
extstore-related; a record with the limit key emits the limit gauge. -/
theorem c7_extstore_gate_witness :
    (∀ o ∈ (statsRecordObsErr
        ⟨[("extstore_bytes_used", "5")], [], []⟩ "m").1,
      o.desc ∉ extstoreDescs) ∧
    (⟨.extstoreBytesLimit, .gauge, 1024, ["m"]⟩ : Obs)
      ∈ (statsRecordObsErr
          ⟨[("extstore_limit_maxbytes", "1024")], [], []⟩ "m").1 := by
  constructor
  · exact (c7_extstore_gate ⟨[("extstore_bytes_used", "5")], [], []⟩ "m").1
      (by decide)
  · refine (c7_extstore_gate ⟨[("extstore_limit_maxbytes", "1024")], [], []⟩
      "m").2 "1024" 1024 (by decide) ?_
    rw [parseGoFloat, parseGoFloatChars_digits (by decide) (by decide),
        show digitsToNat "1024".data = 1024 from by decide]
    norm_num

/-! ## Claim C8 -/

/-- Counterexample to **C8** as stated: the empty stats record — which has
no `version` field — still yields a version observation, labelled with the
Go zero value `""`. -/
theorem c8_counterexample :
    mlookup ([] : StrMap) "version" = none ∧
    (⟨.version, .gauge, 1, ["", "m"]⟩ : Obs)
      ∈ (statsRecordObsErr ⟨[], [], []⟩ "m").1 := by
  refine ⟨rfl, statsRecord_mem_iff.2 (.inl ?_)⟩
  simp [versionChunk, mlookupD, mlookup]

/-- **C8 corrected.** A version observation with value fixed at 1 is emitted
*unconditionally* for every stats record; its version label is the record's
`version` value, or the zero value `""` when the field is absent. -/
theorem c8_version_amended (t : ServerStats) (server : String) :
    (⟨.version, .gauge, 1, [mlookupD t.stats "version", server]⟩ : Obs)
      ∈ (statsRecordObsErr t server).1 :=
  statsRecord_mem_iff.2 (.inl (by simp [versionChunk]))

/-! ## Claim C9 -/

/-- Counterexample to **C9** as stated: `Describe` sends the
`itemsExpiredUnfetched` descriptor twice (lines 723 and 727 of the source),
so not every descriptor is sent exactly once. -/
theorem c9_counterexample :
    describeList.count MetricDesc.itemsExpiredUnfetched = 2 := by decide

set_option maxRecDepth 40000 in
set_option maxHeartbeats 1000000 in
/-- **C9 corrected.** `Describe` sends every one of the exporter's
descriptors at least once — none is omitted — but `itemsExpiredUnfetched` is
sent twice; every other descriptor is sent exactly once. -/
theorem c9_describe_amended :
    ∀ d : MetricDesc,
      describeList.count d = if d = .itemsExpiredUnfetched then 2 else 1 := by
  decide

/-! ## Claim C10 -/

/-- **C10.** Per settings record: when the `lru_crawler` field is not the
exact literal `"yes"` (absent, `"no"`, or anything else), the record's
translation is exactly the `maxconns` binder call — so none of the crawler
gauges (including the enabled gauge itself) is emitted and no failure beyond
the `maxconns` binder's own is reported; any observation other than
max-connections implies the flag was present and `"yes"`; and the
max-connections binder's emissions are always a prefix of the output. -/
theorem c10_crawler_gate (settings : StrMap) (server : String) :
    (mlookup settings "lru_crawler" ≠ some "yes" →
      settingsRecordObsErr settings server
        = runBind settings (maxconnsSpec server)) ∧
    (∀ o ∈ (settingsRecordObsErr settings server).1,
      o.desc ≠ .maxConnections →
        mlookup settings "lru_crawler" = some "yes") ∧
    (∃ rest, (settingsRecordObsErr settings server).1
      = (runBind settings (maxconnsSpec server)).1 ++ rest) := by
  refine ⟨?_, ?_, ?_⟩
  · intro hne
    unfold settingsRecordObsErr
    rw [if_neg hne]
    rcases hr : runBind settings (maxconnsSpec server) with ⟨obs, err⟩
    show (obs ++ ([] ++ []), _) = (obs, err)
    cases err <;> simp [updErr]
  · intro o ho hne
    rcases settingsRecord_mem_iff.1 ho with h | ⟨hc, -⟩
    · have := (mem_runBind h).1
      rw [this] at hne
      exact absurd rfl hne
    · exact hc
  · exact ⟨_, rfl⟩

/-- Witness for C10: with `lru_crawler = "no"` the record's translation is
exactly the `maxconns` binder result. -/
theorem c10_crawler_gate_witness :
    settingsRecordObsErr [("lru_crawler", "no"), ("maxconns", "1024")] "m"
      = runBind [("lru_crawler", "no"), ("maxconns", "1024")]
          (maxconnsSpec "m") :=
  (c10_crawler_gate [("lru_crawler", "no"), ("maxconns", "1024")] "m").1
    (by decide)

end MemcachedExporter
